import Mathlib

/-!
Shallow embedding of the merx-rs order code (`src/order.rs`) and engine facade
(`src/engine.rs`). Prices and quantities are `rust_decimal::Decimal` in the
source, an exact signed fixed-point decimal; we embed them as rationals, on
which the source's additions, subtractions, comparisons and `min` coincide
with the decimal ones (overflow aside, which no claim here exercises).
-/

/-- Embeds `OrderPrice = Decimal` (order.rs line 31). -/
abbrev OrderPrice : Type := Rat

/-- Embeds `OrderQuantity = Decimal` (order.rs line 32). -/
abbrev OrderQuantity : Type := Rat

/-- Embeds `struct OrderId(u64)` (order.rs line 9). The claims never exercise
u64 wraparound, so the payload is a `Nat`. -/
structure OrderId where
  val : Nat
deriving DecidableEq, Repr

/-- Embeds `enum OrderSide { Ask, Bid }` (order.rs lines 71-74). -/
inductive OrderSide
  | Ask
  | Bid
deriving DecidableEq, Repr

/-- Embeds `enum TimeInForce` (order.rs lines 114-125). -/
inductive TimeInForce
  | GoodTilCancel (post_only : Bool)
  | ImmediateOrCancel (fill_or_kill : Bool)
deriving DecidableEq, Repr

/-- Embeds `impl Default for TimeInForce` (order.rs lines 127-131). -/
def TimeInForce.dflt : TimeInForce := .GoodTilCancel false

/-- Embeds `enum OrderType` (order.rs lines 99-110). -/
inductive OrderType
  | Limit (limit_price : OrderPrice) (time_in_force : TimeInForce)
  | Market (fill_or_kill : Bool)
deriving DecidableEq, Repr

/-- Embeds `enum OrderStatus` (order.rs lines 135-142). -/
inductive OrderStatus
  | Open
  | Partial
  | Cancelled
  | Closed
  | Completed
deriving DecidableEq, Repr

/-- Embeds `struct Order` (order.rs lines 145-154). -/
structure Order where
  id : OrderId
  side : OrderSide
  type_ : OrderType
  order_quantity : OrderQuantity
  filled_quantity : OrderQuantity
  status : OrderStatus
deriving DecidableEq, Repr

/-- Embeds `Order::limit_order` (order.rs lines 158-170): fresh Open limit
order, filled 0, default time in force; argument order as in the source
signature `(id, side, quantity, limit_price)`. -/
def Order.limit_order (id : OrderId) (side : OrderSide) (quantity : OrderQuantity)
    (limit_price : OrderPrice) : Order :=
  { id := id
    side := side
    type_ := .Limit limit_price TimeInForce.dflt
    order_quantity := quantity
    filled_quantity := 0
    status := .Open }

/-- Embeds `Order::market_order` (order.rs lines 173-184). -/
def Order.market_order (id : OrderId) (side : OrderSide) (quantity : OrderQuantity) : Order :=
  { id := id
    side := side
    type_ := .Market false
    order_quantity := quantity
    filled_quantity := 0
    status := .Open }

/-- Embeds `Order::remaining` (order.rs lines 197-199). -/
def Order.remaining (o : Order) : OrderQuantity :=
  o.order_quantity - o.filled_quantity

/-- Embeds `Order::limit_price` (order.rs lines 207-212). -/
def Order.limit_price (o : Order) : Option OrderPrice :=
  match o.type_ with
  | .Limit p _ => some p
  | .Market _ => none

/-- Embeds `Order::can_trade` (order.rs lines 214-216). -/
def Order.can_trade (o other : Order) : OrderQuantity :=
  min o.remaining other.remaining

/-- Embeds `Order::is_closed` (order.rs lines 227-232). -/
def Order.is_closed (o : Order) : Bool :=
  match o.status with
  | .Cancelled | .Closed | .Completed => true
  | _ => false

/-- Embeds `enum OrderError` (order.rs lines 362-368). -/
inductive OrderError
  | Overfill (fill : OrderQuantity) (remaining : OrderQuantity)
deriving DecidableEq, Repr

/-- Embeds `Order::fill` (order.rs lines 254-270): error when the requested
quantity exceeds the remaining one, otherwise add it to `filled_quantity` and
set the status to `Completed` exactly when the order is now full, else
`Partial`. The Rust method mutates in place; we return the updated order. -/
def Order.fill (o : Order) (quantity : OrderQuantity) : Except OrderError Order :=
  if quantity > o.remaining then
    .error (.Overfill quantity o.remaining)
  else
    let filled := o.filled_quantity + quantity
    .ok { o with
          filled_quantity := filled
          status := if filled = o.order_quantity then .Completed else .Partial }

/-- Embeds `Order::cancel` (order.rs lines 273-279). -/
def Order.cancel (o : Order) : Order :=
  match o.status with
  | .Open => { o with status := .Cancelled }
  | .Partial => { o with status := .Closed }
  | _ => o

/-- Embeds `impl PartialEq for Order` (order.rs lines 288-293): equality is by
id alone. -/
def Order.peq (o other : Order) : Bool :=
  o.id = other.id

/-- The ordering `Ord::cmp` yields on two rationals; on the decimals the source
compares, `rust_decimal`'s `Ord` agrees with the numeric order. -/
def ratCmp (a b : Rat) : Ordering :=
  if a < b then .lt else if a = b then .eq else .gt

/-- The derived `Ord` on `Option<Decimal>` (order.rs line 302 compares two
`Option<OrderPrice>` values): `None` sorts before `Some`, two `Some`s compare
their payloads. -/
def optPriceCmp : Option OrderPrice → Option OrderPrice → Ordering
  | none, none => .eq
  | none, some _ => .lt
  | some _, none => .gt
  | some a, some b => ratCmp a b

/-- Embeds `impl PartialOrd for Order` (order.rs lines 296-307): same id gives
`Equal`, otherwise the limit prices (as `Option`s) are compared. The source
wraps this ordering in `Some(..)`, so `partial_cmp` is total. -/
def Order.cmp (o other : Order) : Ordering :=
  if o.id = other.id then .eq
  else optPriceCmp o.limit_price other.limit_price

/-- Rust's `taker <= maker` on orders: `partial_cmp` returned `Less` or
`Equal`. -/
def Order.le (o other : Order) : Bool :=
  match Order.cmp o other with
  | .lt | .eq => true
  | .gt => false

/-- Rust's `taker >= maker` on orders: `partial_cmp` returned `Greater` or
`Equal`. -/
def Order.ge (o other : Order) : Bool :=
  match Order.cmp o other with
  | .gt | .eq => true
  | .lt => false

/-- Embeds `Order::matches` (order.rs lines 235-251): `self` is the taker. -/
def Order.matches (taker maker : Order) : Bool :=
  if taker.is_closed || maker.is_closed || maker.limit_price.isNone then
    false
  else
    match taker.type_ with
    | .Limit _ _ =>
      match taker.side, maker.side with
      | .Ask, .Bid => Order.le taker maker
      | .Bid, .Ask => Order.ge taker maker
      | _, _ => false
    | .Market _ => true

/-- Embeds `impl Display for OrderId` (order.rs lines 24-28):
`write!(f, "order_id:{}", self.0)`. -/
def OrderId.display (i : OrderId) : String :=
  "order_id:" ++ toString i.val

/-- Embeds `impl Display for OrderSide` (order.rs lines 76-83): `Ask` renders
as `SELL`, `Bid` as `BUY`. -/
def OrderSide.display : OrderSide → String
  | .Ask => "SELL"
  | .Bid => "BUY"

/-- The number of fractional digits of a rational whose denominator divides a
power of ten: the smallest scale at which the value is exactly representable.
`rust_decimal` keeps scales up to 28. -/
def decScale (den : Nat) : Nat :=
  ((List.range 29).find? fun k => 10 ^ k % den = 0).getD 0

/-- Left-pads a digit string with zeros to the given width. -/
def zeroPad (s : String) (width : Nat) : String :=
  String.mk (List.replicate (width - s.length) '0') ++ s

/-- Renders a decimal value as `rust_decimal`'s `Display` renders a `Decimal`
held at its minimal scale: optional sign, integer part, and, when the value is
not an integer, a point followed by the exact fractional digits. The rational
embedding drops the stored scale, so trailing zeros a larger stored scale
would print (`1.50`) are not modelled; every value a claim exercises is an
integer, which both renderings print identically. -/
def decimalDisplay (q : Rat) : String :=
  let s := decScale q.den
  let m : Int := q.num * ((10 : Int) ^ s / (q.den : Int))
  if s = 0 then toString m
  else
    (if m < 0 then "-" else "")
      ++ toString (m.natAbs / 10 ^ s)
      ++ "." ++ zeroPad (toString (m.natAbs % 10 ^ s)) s

/-- Embeds `impl Display for Order` (order.rs lines 309-319): the format
string `ORDER[{order_id}] {side} {quantity}@{limit_price}` with the id and
side rendered by their own `Display` impls, `order_quantity` as the quantity,
and the literal `MARKET` in place of the price for a market order. -/
def Order.display (o : Order) : String :=
  "ORDER[" ++ o.id.display ++ "] " ++ o.side.display ++ " "
    ++ decimalDisplay o.order_quantity ++ "@"
    ++ match o.limit_price with
       | some p => decimalDisplay p
       | none => "MARKET"

/-- Embeds `enum OrderRequest` (order.rs lines 36-48); `CompactString` fields
are embedded as `String`. -/
inductive OrderRequest
  | Create (account_id : String) (order_id : Nat) (pair : String) (side : OrderSide)
      (limit_price : Option OrderPrice) (quantity : OrderQuantity)
  | Cancel (order_id : Nat)
deriving DecidableEq, Repr

/-- The pair a request addresses: `Some` for `Create`, `None` for `Cancel`
(which carries no pair in the source). -/
def OrderRequest.pairOf : OrderRequest → Option String
  | .Create _ _ pair _ _ _ => some pair
  | .Cancel _ => none

/-- Embeds `enum EngineError` (engine.rs lines 52-59). -/
inductive EngineError
  | InvalidPair (expected : String) (found : String)
deriving DecidableEq, Repr

/-- Embeds the value `Engine::process` returns (engine.rs lines 25-44). Both
request arms only perform orderbook calls whose results are bound to `_` and
discarded; the request's `pair` field is never compared with the engine's
stored `_pair` (which no code reads), no arm constructs an `EngineError`, and
every path falls through to `Ok(())`. The first parameter is the pair the
engine was constructed with (`Engine::new`, engine.rs lines 17-22). -/
def Engine.processResult (_pair : String) (req : OrderRequest) :
    Except EngineError Unit :=
  match req with
  | .Create _ _ _ _ _ _ => .ok ()
  | .Cancel _ => .ok ()

instance : DecidableEq (Except OrderError Order) := fun a b =>
  match a, b with
  | .ok x, .ok y =>
    if h : x = y then isTrue (by rw [h]) else isFalse fun hc => h (Except.ok.inj hc)
  | .error x, .error y =>
    if h : x = y then isTrue (by rw [h]) else isFalse fun hc => h (Except.error.inj hc)
  | .ok _, .error _ => isFalse fun hc => Except.noConfusion hc
  | .error _, .ok _ => isFalse fun hc => Except.noConfusion hc

/-- `Order::fill` on the success path: when the requested quantity does not
exceed the remaining one, the order comes back with the quantity added to
`filled_quantity` and the recomputed status. -/
theorem Order.fill_of_le (o : Order) (q : OrderQuantity) (h : q ≤ o.remaining) :
    Order.fill o q =
      .ok { o with
            filled_quantity := o.filled_quantity + q
            status := if o.filled_quantity + q = o.order_quantity
                      then .Completed else .Partial } := by
  unfold Order.fill
  rw [if_neg (not_lt.mpr h)]

/-- `Order::fill` on the failure path: a quantity strictly above the remaining
one yields the `Overfill` error carrying both amounts. -/
theorem Order.fill_of_gt (o : Order) (q : OrderQuantity) (h : o.remaining < q) :
    Order.fill o q = .error (.Overfill q o.remaining) := by
  unfold Order.fill
  rw [if_pos h]

/-- C1: for every order, `fill(qty)` fails, with the `OverFill` error carrying
the attempted fill and the remaining amount, exactly when `qty` exceeds
`remaining = order_quantity - filled_quantity`; on success it increases
`filled_quantity` by `qty` and sets the status to `Completed` when the order
is now full, else to `Partial`. -/
theorem Order.fill_spec (o : Order) (q : OrderQuantity) :
    ((Order.fill o q).isOk = false ↔ o.remaining < q) ∧
    (o.remaining < q → Order.fill o q = .error (.Overfill q o.remaining)) ∧
    (q ≤ o.remaining →
      Order.fill o q =
        .ok { o with
              filled_quantity := o.filled_quantity + q
              status := if o.filled_quantity + q = o.order_quantity
                        then .Completed else .Partial }) := by
  refine ⟨?_, Order.fill_of_gt o q, Order.fill_of_le o q⟩
  rcases lt_or_ge o.remaining q with h | h
  · rw [Order.fill_of_gt o q h]
    simp [Except.isOk, Except.toBool, h]
  · rw [Order.fill_of_le o q h]
    simp [Except.isOk, Except.toBool]
    exact h

/-- Witness for C1: filling 4 of a fresh ask for 10 at price 5 succeeds and
leaves it `Partial` with `filled_quantity` 4. -/
theorem Order.fill_spec_witness :
    Order.fill (Order.limit_order ⟨1⟩ .Ask 10 5) 4 =
      .ok { Order.limit_order ⟨1⟩ .Ask 10 5 with
            filled_quantity := 4, status := .Partial } := by
  rw [(Order.fill_spec (Order.limit_order ⟨1⟩ .Ask 10 5) 4).2.2
      (by simp only [Order.remaining, Order.limit_order, sub_zero]; decide)]
  simp [Order.limit_order]

/-- C6: `cancel()` sends `Open` to `Cancelled` and `Partial` to `Closed`, is
the identity on every terminal status, and never touches the quantities. -/
theorem Order.cancel_spec (o : Order) :
    (o.status = .Open → Order.cancel o = { o with status := .Cancelled }) ∧
    (o.status = .Partial → Order.cancel o = { o with status := .Closed }) ∧
    (o.is_closed = true → Order.cancel o = o) ∧
    (Order.cancel o).filled_quantity = o.filled_quantity ∧
    (Order.cancel o).order_quantity = o.order_quantity := by
  unfold Order.cancel Order.is_closed
  rcases o with ⟨i, s, t, oq, fq, st⟩
  cases st <;> simp

/-- Witness for C6: cancelling a fresh (Open) order marks it `Cancelled`. -/
theorem Order.cancel_spec_witness :
    Order.cancel (Order.limit_order ⟨1⟩ .Ask 10 5) =
      { Order.limit_order ⟨1⟩ .Ask 10 5 with status := .Cancelled } :=
  (Order.cancel_spec (Order.limit_order ⟨1⟩ .Ask 10 5)).1 rfl

/-- C7: the tradeable quantity between two orders is the minimum of their
remaining quantities, each being `order_quantity - filled_quantity`. -/
theorem Order.can_trade_min (a b : Order) :
    Order.can_trade a b =
      min (a.order_quantity - a.filled_quantity) (b.order_quantity - b.filled_quantity) := rfl

/-- C10: on an `Open` order with positive remaining quantity, `fill(0)`
succeeds and switches the status to `Partial` while `filled_quantity` is left
exactly as it was (zero for any order built by the constructors). -/
theorem Order.fill_zero_partial (o : Order) (hOpen : o.status = .Open)
    (hrem : 0 < o.remaining) :
    Order.fill o 0 = .ok { o with status := .Partial } := by
  rw [Order.fill_of_le o 0 (le_of_lt hrem)]
  have hne : o.filled_quantity ≠ o.order_quantity :=
    ne_of_lt (sub_pos.mp hrem)
  simp [hne]

/-- Witness for C10: `fill(0)` on a fresh bid for 10 at price 5 yields status
`Partial` with nothing filled. -/
theorem Order.fill_zero_partial_witness :
    Order.fill (Order.limit_order ⟨2⟩ .Bid 10 5) 0 =
      .ok { Order.limit_order ⟨2⟩ .Bid 10 5 with status := .Partial } :=
  Order.fill_zero_partial (Order.limit_order ⟨2⟩ .Bid 10 5) rfl
    (by simp [Order.remaining, Order.limit_order])

/-- A terminal order that still has remaining quantity: a fresh bid for 10 at
price 5, cancelled while fully unfilled (status `Cancelled`). -/
def cancelledOrder : Order := Order.cancel (Order.limit_order ⟨3⟩ .Bid 10 5)

/-- C3 counterexample: the terminal (Cancelled) order above is mutated by
`fill(5)`: the call succeeds and moves it to status `Partial` with
`filled_quantity` 5, because `fill` never consults the status. -/
theorem Order.fill_mutates_terminal_cex :
    cancelledOrder.status = .Cancelled ∧
    cancelledOrder.is_closed = true ∧
    Order.fill cancelledOrder 5 =
      .ok { cancelledOrder with filled_quantity := 5, status := .Partial } := by
  refine ⟨rfl, rfl, ?_⟩
  rw [Order.fill_of_le cancelledOrder 5
      (by simp only [cancelledOrder, Order.remaining, Order.cancel, Order.limit_order, sub_zero]
          decide)]
  simp only [cancelledOrder, Order.cancel, Order.limit_order]
  norm_num

/-- C3 (amended): `cancel()` is a no-op on every terminal order, and `fill`
leaves a terminal order untouched when it fails (qty above the remaining
amount) — in particular a `Completed` order (whose `filled_quantity` equals
`order_quantity`) keeps its status and `filled_quantity` under every
successful nonnegative fill. `fill` does not otherwise consult the status: a
`Cancelled` or `Closed` order with remaining quantity is mutated by a
successful fill, as the counterexample shows. -/
theorem Order.terminal_guarded_mutation (o : Order) (h : o.is_closed = true) :
    Order.cancel o = o ∧
    (∀ q, o.remaining < q → Order.fill o q = .error (.Overfill q o.remaining)) ∧
    (o.status = .Completed → o.filled_quantity = o.order_quantity →
      ∀ q, 0 ≤ q → ∀ o', Order.fill o q = .ok o' →
        o'.status = o.status ∧ o'.filled_quantity = o.filled_quantity) := by
  refine ⟨?_, fun q hq => Order.fill_of_gt o q hq, ?_⟩
  · unfold Order.cancel
    unfold Order.is_closed at h
    rcases o with ⟨i, s, t, oq, fq, st⟩
    cases st <;> simp_all
  · intro hC hF q hq o' hok
    have hrem : o.remaining = 0 := by simp [Order.remaining, hF]
    rcases eq_or_lt_of_le hq with hq0 | hqpos
    · rw [Order.fill_of_le o q (le_of_eq (hq0.symm.trans hrem.symm))] at hok
      rcases hok with rfl | _
      constructor
      · simp [← hq0, hF, hC]
      · simp [← hq0]
    · exfalso
      rw [Order.fill_of_gt o q (hrem ▸ hqpos)] at hok
      exact Except.noConfusion hok

/-- Witness for C3 (amended): cancelling the already-cancelled order changes
nothing. -/
theorem Order.terminal_guarded_mutation_witness :
    Order.cancel cancelledOrder = cancelledOrder :=
  (Order.terminal_guarded_mutation cancelledOrder rfl).1

/-- Rust's `taker <= maker` coincides with the price comparison when the two
ids differ and both orders carry limit prices. -/
theorem Order.le_true_iff (T M : Order) (h : T.id ≠ M.id) (pt pm : OrderPrice)
    (hT : T.limit_price = some pt) (hM : M.limit_price = some pm) :
    Order.le T M = true ↔ pt ≤ pm := by
  unfold Order.le Order.cmp
  rw [if_neg h, hT, hM]
  unfold optPriceCmp ratCmp
  rcases lt_trichotomy pt pm with hl | he | hg
  · simp [hl, le_of_lt hl]
  · simp [he]
  · have h1 : ¬ pt < pm := not_lt_of_gt hg
    have h2 : pt ≠ pm := (ne_of_lt hg).symm
    simp [h1, h2, not_le_of_gt hg]

/-- Rust's `taker >= maker` coincides with the reversed price comparison when
the two ids differ and both orders carry limit prices. -/
theorem Order.ge_true_iff (T M : Order) (h : T.id ≠ M.id) (pt pm : OrderPrice)
    (hT : T.limit_price = some pt) (hM : M.limit_price = some pm) :
    Order.ge T M = true ↔ pm ≤ pt := by
  unfold Order.ge Order.cmp
  rw [if_neg h, hT, hM]
  unfold optPriceCmp ratCmp
  rcases lt_trichotomy pt pm with hl | he | hg
  · simp [hl, not_le_of_gt hl]
  · simp [he]
  · have h1 : ¬ pt < pm := not_lt_of_gt hg
    have h2 : pt ≠ pm := (ne_of_lt hg).symm
    simp [h1, h2, le_of_lt hg]

/-- Orders with equal ids compare `Equal`, so Rust's `<=` holds between
them whatever their prices. -/
theorem Order.le_of_same_id (T M : Order) (h : T.id = M.id) : Order.le T M = true := by
  unfold Order.le Order.cmp
  rw [if_pos h]

/-- Orders with equal ids compare `Equal`, so Rust's `>=` holds between
them whatever their prices. -/
theorem Order.ge_of_same_id (T M : Order) (h : T.id = M.id) : Order.ge T M = true := by
  unfold Order.ge Order.cmp
  rw [if_pos h]

/-- When neither order is closed and the maker has a price, `matches` reduces
to the taker-type dispatch of the source. -/
theorem Order.matches_eval (T M : Order) (h1 : T.is_closed = false)
    (h2 : M.is_closed = false) (pm : OrderPrice) (hM : M.limit_price = some pm) :
    Order.matches T M =
      match T.type_ with
      | .Limit _ _ =>
        match T.side, M.side with
        | .Ask, .Bid => Order.le T M
        | .Bid, .Ask => Order.ge T M
        | _, _ => false
      | .Market _ => true := by
  unfold Order.matches
  rw [h1, h2, hM]
  rfl

/-- A limit ask at price 20 and a limit bid at price 10 that share order id 7:
two distinct open orders the source's `PartialOrd` treats as equal. -/
def sameIdAsk : Order := Order.limit_order ⟨7⟩ .Ask 10 20

/-- The bid half of the shared-id pair above. -/
def sameIdBid : Order := Order.limit_order ⟨7⟩ .Bid 10 10

/-- C2 counterexample: an open limit Ask taker at 20 against an open limit Bid
maker at 10 matches even though the ask price exceeds the bid price, because
the two orders carry the same id and the source's order comparison returns
`Equal` on equal ids before ever looking at prices. -/
theorem Order.matches_same_id_cex :
    Order.matches sameIdAsk sameIdBid = true ∧
    sameIdAsk.is_closed = false ∧ sameIdBid.is_closed = false ∧
    sameIdAsk.side = .Ask ∧ sameIdBid.side = .Bid ∧
    sameIdAsk.limit_price = some 20 ∧ sameIdBid.limit_price = some 10 ∧
    ¬ ((20 : OrderPrice) ≤ 10) :=
  ⟨rfl, rfl, rfl, rfl, rfl, rfl, rfl, by decide⟩

/-- C2 (amended): `matches` is false when either order is closed or the maker
has no price; a Market taker (neither closed, maker priced) always matches; a
Limit Ask taker against a Bid maker with a **different id** matches iff its
price is at most the maker's, and a Limit Bid taker against an Ask maker with
a different id matches iff its price is at least the maker's; a Limit taker
against a same-side maker never matches; and a Limit taker against an
opposite-side maker with the **same id** matches regardless of either price,
because equal ids compare `Equal`. -/
theorem Order.matches_characterization (T M : Order) :
    (T.is_closed = true → Order.matches T M = false) ∧
    (M.is_closed = true → Order.matches T M = false) ∧
    (M.limit_price = none → Order.matches T M = false) ∧
    (∀ fok pm, T.is_closed = false → M.is_closed = false →
      M.limit_price = some pm → T.type_ = .Market fok → Order.matches T M = true) ∧
    (∀ pt pm, T.is_closed = false → M.is_closed = false → T.id ≠ M.id →
      T.limit_price = some pt → M.limit_price = some pm →
      T.side = .Ask → M.side = .Bid →
      (Order.matches T M = true ↔ pt ≤ pm)) ∧
    (∀ pt pm, T.is_closed = false → M.is_closed = false → T.id ≠ M.id →
      T.limit_price = some pt → M.limit_price = some pm →
      T.side = .Bid → M.side = .Ask →
      (Order.matches T M = true ↔ pm ≤ pt)) ∧
    (∀ pt tif, T.type_ = .Limit pt tif → T.side = M.side → Order.matches T M = false) ∧
    (∀ pt tif pm, T.is_closed = false → M.is_closed = false → T.id = M.id →
      T.type_ = .Limit pt tif → M.limit_price = some pm → T.side ≠ M.side →
      Order.matches T M = true) := by
  refine ⟨?_, ?_, ?_, ?_, ?_, ?_, ?_, ?_⟩
  · intro h
    simp [Order.matches, h]
  · intro h
    simp [Order.matches, h]
  · intro h
    simp [Order.matches, h]
  · intro fok pm h1 h2 hM htyp
    rw [Order.matches_eval T M h1 h2 pm hM, htyp]
  · intro pt pm h1 h2 hne hT hM hTs hMs
    have htyp : ∃ tif, T.type_ = .Limit pt tif := by
      unfold Order.limit_price at hT
      rcases hty : T.type_ with ⟨p, tif⟩ | fok <;> rw [hty] at hT
      · exact ⟨tif, by rw [Option.some_inj.mp hT]⟩
      · exact absurd hT (by simp)
    rcases htyp with ⟨tif, htyp⟩
    rw [Order.matches_eval T M h1 h2 pm hM, htyp, hTs, hMs]
    exact Order.le_true_iff T M hne pt pm hT hM
  · intro pt pm h1 h2 hne hT hM hTs hMs
    have htyp : ∃ tif, T.type_ = .Limit pt tif := by
      unfold Order.limit_price at hT
      rcases hty : T.type_ with ⟨p, tif⟩ | fok <;> rw [hty] at hT
      · exact ⟨tif, by rw [Option.some_inj.mp hT]⟩
      · exact absurd hT (by simp)
    rcases htyp with ⟨tif, htyp⟩
    rw [Order.matches_eval T M h1 h2 pm hM, htyp, hTs, hMs]
    exact Order.ge_true_iff T M hne pt pm hT hM
  · intro pt tif htyp hS
    unfold Order.matches
    split
    · rfl
    · rw [htyp]
      rcases cT : T.side <;> rcases cM : M.side <;> simp_all
  · intro pt tif pm h1 h2 hid htyp hM hS
    rw [Order.matches_eval T M h1 h2 pm hM, htyp]
    rcases cT : T.side <;> rcases cM : M.side <;> rw [cT, cM] at hS <;> try exact absurd rfl hS
    · exact Order.le_of_same_id T M hid
    · exact Order.ge_of_same_id T M hid

/-- Witness for C2 (amended): an open limit ask at 13 (id 901050013) matches
an open limit bid at 14 (id 900020014), their ids being distinct and 13 ≤ 14. -/
theorem Order.matches_characterization_witness :
    Order.matches (Order.limit_order ⟨901050013⟩ .Ask 50 13)
      (Order.limit_order ⟨900020014⟩ .Bid 20 14) = true :=
  ((Order.matches_characterization (Order.limit_order ⟨901050013⟩ .Ask 50 13)
      (Order.limit_order ⟨900020014⟩ .Bid 20 14)).2.2.2.2.1 13 14 rfl rfl (by decide)
    rfl rfl rfl rfl).mpr (by decide)

/-- A limit ask for 10 at price 10 with id 4: one of a pair of distinct-id
orders sharing a limit price. -/
def priceTwinA : Order := Order.limit_order ⟨4⟩ .Ask 10 10

/-- The other half of the shared-price pair: id 5, same limit price 10. -/
def priceTwinB : Order := Order.limit_order ⟨5⟩ .Bid 20 10

/-- C9: the source's `PartialEq` on orders holds exactly when the ids are
equal, while `partial_cmp` compares ids first (equal ids give `Equal`) and
otherwise orders by limit price; hence the concrete pair `priceTwinA`,
`priceTwinB` with distinct ids but the same price compares `Equal` without
being equal, and any same-id pair compares `Equal` whatever its prices. -/
theorem Order.eq_by_id_ord_by_price :
    (∀ a b : Order, Order.peq a b = true ↔ a.id = b.id) ∧
    (∀ a b : Order, a.id ≠ b.id →
      Order.cmp a b = optPriceCmp a.limit_price b.limit_price) ∧
    (∀ a b : Order, a.id = b.id → Order.cmp a b = .eq) ∧
    (Order.cmp priceTwinA priceTwinB = .eq ∧
      Order.peq priceTwinA priceTwinB = false ∧
      priceTwinA.id ≠ priceTwinB.id ∧
      priceTwinA.limit_price = priceTwinB.limit_price) := by
  refine ⟨?_, ?_, ?_, by decide, by decide, by decide, rfl⟩
  · intro a b
    simp [Order.peq]
  · intro a b h
    unfold Order.cmp
    rw [if_neg h]
  · intro a b h
    unfold Order.cmp
    rw [if_pos h]

/-- Witness for C9: two orders sharing id 9 but with different prices (20 and
7) compare `Equal`. -/
theorem Order.eq_by_id_ord_by_price_witness :
    Order.cmp (Order.limit_order ⟨9⟩ .Ask 10 20) (Order.limit_order ⟨9⟩ .Bid 5 7) = .eq :=
  Order.eq_by_id_ord_by_price.2.2.1
    (Order.limit_order ⟨9⟩ .Ask 10 20) (Order.limit_order ⟨9⟩ .Bid 5 7) rfl

/-- C8: every order displays as `ORDER[<id>] <side> <quantity>@<price|MARKET>`
with the id rendered by `OrderId`'s display (`order_id:<n>`), `BUY` for `Bid`
and `SELL` for `Ask`, the `order_quantity` as the quantity, and either the
limit price or the literal `MARKET` after the `@`; in particular a limit bid
for 70 at 13 with id 42 prints `ORDER[order_id:42] BUY 70@13` and a market ask
for 70 with id 7 prints `ORDER[order_id:7] SELL 70@MARKET`. -/
theorem Order.display_format (o : Order) :
    (Order.display o =
      "ORDER[" ++ ("order_id:" ++ toString o.id.val) ++ "] "
        ++ (match o.side with | .Ask => "SELL" | .Bid => "BUY") ++ " "
        ++ decimalDisplay o.order_quantity ++ "@"
        ++ (match o.limit_price with
            | some p => decimalDisplay p
            | none => "MARKET")) ∧
    Order.display (Order.limit_order ⟨42⟩ .Bid 70 13) = "ORDER[order_id:42] BUY 70@13" ∧
    Order.display (Order.market_order ⟨7⟩ .Ask 70) = "ORDER[order_id:7] SELL 70@MARKET" := by
  refine ⟨?_, by decide, by decide⟩
  rcases o with ⟨i, s, t, oq, fq, st⟩
  cases s <;> cases t <;> rfl

/-- A create request addressed to the pair BTC/USDT: a limit bid for 40 at 13
with order id 1 from account 1. -/
def wrongPairCreate : OrderRequest :=
  .Create "1" 1 "BTC/USDT" .Bid (some 13) 40

/-- C5 counterexample: an engine constructed for ETH/USDT processes a create
request for the different pair BTC/USDT to `Ok(())`; no `InvalidPair` (or any
other) error is returned. -/
theorem Engine.process_wrong_pair_cex :
    OrderRequest.pairOf wrongPairCreate = some "BTC/USDT" ∧
    "BTC/USDT" ≠ "ETH/USDT" ∧
    Engine.processResult "ETH/USDT" wrongPairCreate = .ok () :=
  ⟨rfl, by decide, rfl⟩

/-- C5 (amended): `Engine::process` returns `Ok(())` for every request,
whatever pair the request carries and whatever pair the engine was built
with; the `InvalidPair` variant exists but is never produced, as the stored
pair is never read. -/
theorem Engine.process_always_ok (pair : String) (req : OrderRequest) :
    Engine.processResult pair req = .ok () := by
  cases req <;> rfl
